import Mathlib

/-!
Verification of the result-normalization and persistence logic of the
Firecrawl MCP client (`firecrawl_client.py`).

The Python code inspects an untyped response value by duck typing
(`hasattr(obj, '__dict__')`, `hasattr(obj, '__iter__')`, `hasattr(obj, 'text')`,
`hasattr(obj, 'content')`, `isinstance(obj, str)`, ...).  We model the
universe of values the code distinguishes as the inductive type `Value`:

  * `vStr`    : a Python `str` (iterable, excluded by the `isinstance` guards;
                iterating it yields its one-character strings);
  * `vBytes`  : a Python `bytes` (iterable, yields integers; excluded by the
                `isinstance(obj, (str, bytes))` guard of `_make_serializable`);
  * `vInt`    : an integer (stands for the non-iterable primitives);
  * `vNone`   : Python `None`;
  * `vList`   : a list / sequence (iterable, yields its items);
  * `vDict`   : a plain mapping with string keys (a `dict` instance has no
                `__dict__` attribute, but it is iterable and iterating it
                yields its KEYS, in insertion order);
  * `vObj`    : an attribute-bearing object: `obj.__dict__` is the ordered
                association list `attrs`; `hasattr(obj, a)` holds exactly when
                `a` is a key of `attrs`.  Plain objects define no `__iter__`,
                so they are modelled as non-iterable.

Machine integers do not occur: the code never does arithmetic on response
values.
-/

inductive Value where
  | vStr   (s : String)
  | vBytes (b : List Nat)
  | vInt   (n : Int)
  | vNone
  | vList  (items : List Value)
  | vDict  (entries : List (String × Value))
  | vObj   (attrs : List (String × Value))

namespace Value

/-- Python truthiness (`if x:`) for the modelled values: `None`, `0`, and the
empty string / bytes / list / dict are falsy; a plain object is truthy. -/
def truthy : Value → Bool
  | vStr s    => s != ""
  | vBytes b  => !b.isEmpty
  | vInt n    => n != 0
  | vNone     => false
  | vList l   => !l.isEmpty
  | vDict e   => !e.isEmpty
  | vObj _    => true

end Value

open Value

/-- Python's `key.startswith('_')` for a one-character prefix: the first
character of the key is an underscore. -/
def startswith_underscore (key : String) : Bool :=
  match key.data with
  | [] => false
  | c :: _ => c == '_'

/-- Embedding of `FirecrawlMCPClient._make_serializable` (lines 135-147).

```
if hasattr(obj, '__dict__'):            # only vObj
    result = {}
    for key, value in obj.__dict__.items():
        if key.startswith('_'): continue
        result[key] = self._make_serializable(value)
    return result
elif hasattr(obj, '__iter__') and not isinstance(obj, (str, bytes)):
    return [self._make_serializable(item) for item in obj]
else:
    return obj
```

For `vDict` the iteration yields the keys, which are strings; the recursive
call on a string returns it unchanged (the `else` arm), so the arm is written
with that one step inlined.  `str` and `bytes` are excluded from the
iteration branch by the `isinstance` guard and fall to the `else` arm. -/
def make_serializable : Value → Value
  | vObj attrs =>
      vDict ((attrs.filter (fun kv => !startswith_underscore kv.1)).attach.map
        (fun kv => (kv.1.1, make_serializable kv.1.2)))
  | vList items => vList (items.attach.map (fun x => make_serializable x.1))
  | vDict entries => vList (entries.map (fun kv => vStr kv.1))
  | vBytes b => vBytes b
  | vStr s => vStr s
  | vInt n => vInt n
  | vNone => vNone
termination_by v => sizeOf v
decreasing_by
  · have h1 : sizeOf kv.1 < sizeOf attrs :=
      List.sizeOf_lt_of_mem (List.mem_of_mem_filter kv.2)
    have h2 : sizeOf kv.1.2 < sizeOf kv.1 := by
      cases kv.1 with
      | mk a b => simp
    simp; omega
  · have h1 : sizeOf x.1 < sizeOf items := List.sizeOf_lt_of_mem x.2
    simp; omega

/-- The string payload of a value, when it is one (`isinstance(x, str)`). -/
def asStr : Value → Option String
  | vStr s => some s
  | _ => none

/-- A successful association-list lookup comes from a member of the list. -/
theorem lookup_mem {k : String} {v : Value} :
    ∀ {es : List (String × Value)}, es.lookup k = some v → (k, v) ∈ es := by
  intro es
  induction es with
  | nil => intro h; simp [List.lookup] at h
  | cons p es ih =>
      intro h
      rw [List.lookup] at h
      by_cases hk : (k == p.1) = true
      · rw [hk] at h
        cases h
        have hkp : k = p.1 := eq_of_beq hk
        subst hkp
        exact List.mem_cons_self _ _
      · rw [Bool.not_eq_true] at hk
        rw [hk] at h
        exact List.mem_cons_of_mem _ (ih h)

/-- Looking up a key in a member pair bounds the value's size by the list's. -/
theorem sizeOf_lookup_lt {k : String} {v : Value} {es : List (String × Value)}
    (h : es.lookup k = some v) : sizeOf v < sizeOf es := by
  have hm := List.sizeOf_lt_of_mem (lookup_mem h)
  simp at hm
  omega

/-- Embedding of the inner `extract_text` closure of
`FirecrawlMCPClient._extract_text_content` (lines 174-187), returning the
list `text_parts` accumulated by one call on the given value (appends become
list concatenation, in traversal order):

```
if hasattr(obj, 'text'):                       # vObj with a "text" attr
    text_parts.append(obj.text)
elif hasattr(obj, 'content'):                  # vObj with a "content" attr
    if isinstance(obj.content, str):
        text_parts.append(obj.content)
    elif hasattr(obj.content, '__iter__'):     # list, dict, bytes
        for item in obj.content:
            extract_text(item, level + 1)
elif hasattr(obj, '__iter__') and not isinstance(obj, str):
    for item in obj:                           # list, dict, bytes
        extract_text(item, level + 1)
elif isinstance(obj, str):
    text_parts.append(obj)
```

Iterating a `dict` yields its keys; the recursive call on a key (a string)
appends it, so those arms are written with that one step inlined.  Iterating
`bytes` yields integers, on which the recursion appends nothing. -/
def fragments : Value → List Value
  | vObj attrs =>
      match attrs.lookup "text" with
      | some t => [t]
      | none =>
        match _h : attrs.lookup "content" with
        | some (vStr s) => [vStr s]
        | some (vList l) => (l.attach.map (fun x => fragments x.1)).flatten
        | some (vDict e) => e.map (fun kv => vStr kv.1)
        | some (vBytes _) => []
        | some (vInt _) => []
        | some vNone => []
        | some (vObj _) => []
        | none => []
  | vList items => (items.attach.map (fun x => fragments x.1)).flatten
  | vDict entries => entries.map (fun kv => vStr kv.1)
  | vBytes _ => []
  | vStr s => [vStr s]
  | vInt _ => []
  | vNone => []
termination_by v => sizeOf v
decreasing_by
  · have h1 : sizeOf (vList l) < sizeOf attrs := sizeOf_lookup_lt _h
    have h2 : sizeOf x.1 < sizeOf l := List.sizeOf_lt_of_mem x.2
    simp at h1 ⊢
    omega
  · have h1 : sizeOf x.1 < sizeOf items := List.sizeOf_lt_of_mem x.2
    simp; omega

/-- The accumulated parts as strings, when all of them are strings
(`str.join` demands every element be a `str`). -/
def asStrings : List Value → Option (List String)
  | [] => some []
  | v :: vs =>
      match asStr v, asStrings vs with
      | some s, some ss => some (s :: ss)
      | _, _ => none

/-- The final line of `_extract_text_content`:
`return '\n\n'.join(text_parts) if text_parts else None`.  The join raises a
`TypeError` when some accumulated part is not a string; that exception
escapes the caller, which we model with `Except.error`. -/
def join_text_parts (fs : List Value) : Except String (Option String) :=
  match fs with
  | [] => .ok none
  | _ =>
      match asStrings fs with
      | some ss => .ok (some (String.intercalate "\n\n" ss))
      | none => .error "TypeError"

/-- Embedding of `FirecrawlMCPClient._extract_text_content` (lines 170-190):
run the traversal, then join the accumulated parts. -/
def extract_text_content (v : Value) : Except String (Option String) :=
  join_text_parts (fragments v)

/-- A clock reading truncated to one-second precision, as consumed by
`datetime.now().strftime("%Y%m%d_%H%M%S")` (line 104).  Microseconds are
dropped by that format, so they are not part of the model. -/
structure DT where
  year : Nat
  month : Nat
  day : Nat
  hour : Nat
  minute : Nat
  second : Nat
deriving DecidableEq

/-- Zero-padded two-digit decimal field, the `%m`/`%d`/`%H`/`%M`/`%S`
directives of `strftime` (faithful for arguments below 100). -/
def pad2 (n : Nat) : String :=
  String.mk [Nat.digitChar (n / 10), Nat.digitChar (n % 10)]

/-- Zero-padded four-digit decimal field, the `%Y` directive of `strftime`
(faithful for years between 1000 and 9999, where no padding question
arises). -/
def pad4 (n : Nat) : String :=
  String.mk [Nat.digitChar (n / 1000), Nat.digitChar (n / 100 % 10),
             Nat.digitChar (n / 10 % 10), Nat.digitChar (n % 10)]

/-- Embedding of `datetime.now().strftime("%Y%m%d_%H%M%S")` (line 104). -/
def strftime_ts (t : DT) : String :=
  pad4 t.year ++ pad2 t.month ++ pad2 t.day ++ "_" ++
    pad2 t.hour ++ pad2 t.minute ++ pad2 t.second

/-- Ranges a real broken-down clock reading satisfies (the year bounds are
those of any present-day reading; `datetime` itself caps the year at 9999). -/
def validDT (t : DT) : Prop :=
  1000 ≤ t.year ∧ t.year ≤ 9999 ∧ 1 ≤ t.month ∧ t.month ≤ 12 ∧
    1 ≤ t.day ∧ t.day ≤ 31 ∧ t.hour ≤ 23 ∧ t.minute ≤ 59 ∧ t.second ≤ 59

instance (t : DT) : Decidable (validDT t) := by
  unfold validDT; infer_instance

/-- Embedding of the generated filename of `save_to_file` (lines 103-105):
`filename = f"firecrawl_result_{timestamp}"`. -/
def genFilename (t : DT) : String :=
  "firecrawl_result_" ++ strftime_ts t

/-- Observable outcome of one `save_to_file` call: the JSON path it returns,
the Markdown path it returns (`md_path if text_content else None`, line 133),
and whether the Markdown write branch ran (`if text_content:`, line 124). -/
structure SaveFileResult where
  jsonPath : String
  mdPath : Option String
  mdWritten : Bool

/-- The name `save_to_file` ends up writing under: the given one, or the
generated timestamped one when none is given (`if filename is None:`,
line 103). -/
def save_to_file_name (filename : Option String) (now : DT) : String :=
  match filename with
  | some f => f
  | none => genFilename now

/-- Embedding of `FirecrawlMCPClient.save_to_file` (lines 90-133).  The JSON
dump's own success is irrelevant to the claims and is not tracked; a
`TypeError` raised by `_extract_text_content` (line 123) escapes the whole
call, modelled as `Except.error`.  Python's `if text_content:` treats both
`None` and the empty string as false. -/
def save_to_file (data : Value) (filename : Option String) (now : DT)
    (output_dir : String) : Except String SaveFileResult :=
  let fname := save_to_file_name filename now
  let json_path := output_dir ++ "/" ++ fname ++ ".json"
  match extract_text_content data with
  | .error e => .error e
  | .ok tc =>
      let w :=
        match tc with
        | none => false
        | some s => s != ""
      .ok ⟨json_path, if w then some (output_dir ++ "/" ++ fname ++ ".md") else none, w⟩

/-- Outcome of one `save_to_table` call (lines 149-168): the early return for
missing/empty content, the unsupported-format return, a written file with the
extracted rows (`data = [item.text for item in result.content]`, the single
column of the resulting one-column data frame), or an exception caught by the
`except` clause (line 167). -/
inductive TableOutcome where
  | skippedNoContent
  | skippedBadFormat
  | savedFile (rows : List Value) (path : String)
  | failedError

/-- Attribute access `item.text`: only an attribute-bearing object with a
`text` key has it; on anything else the access raises `AttributeError`
(modelled as `none`). -/
def getattr_text : Value → Option Value
  | vObj attrs => attrs.lookup "text"
  | _ => none

/-- Python iteration `for item in x`: lists yield items, dicts their keys,
strings their one-character strings, bytes their integers; other values are
not iterable (a `TypeError`, modelled as `none`). -/
def iterItems : Value → Option (List Value)
  | vList l => some l
  | vDict e => some (e.map (fun kv => vStr kv.1))
  | vStr s => some (s.data.map (fun c => vStr (String.mk [c])))
  | vBytes b => some (b.map (fun n => vInt (Int.ofNat n)))
  | vObj _ => none
  | vInt _ => none
  | vNone => none

/-- The `text` attribute of every item, when each has one (the list
comprehension `[item.text for item in ...]` raises on the first item that
lacks it). -/
def getTexts : List Value → Option (List Value)
  | [] => some []
  | v :: vs =>
      match getattr_text v, getTexts vs with
      | some t, some ts => some (t :: ts)
      | _, _ => none

/-- Embedding of `FirecrawlMCPClient.save_to_table` (lines 149-168):

```
if not hasattr(result, 'content') or not result.content:
    print("No content to save."); return
try:
    data = [item.text for item in result.content]
    df = pd.DataFrame(data)
    if format == "csv":      df.to_csv(f"FILENAME.csv", index=False)
    elif format == "excel":  df.to_excel(f"FILENAME.xlsx", ...)
    else:                    print(f"Unsupported format ..."); return
except Exception as e:       print(f"Failed to save table ...")
```

The list comprehension runs before the format test, so a bad item shape
fails (caught) even under an unsupported format string. -/
def save_to_table (result : Value) (filename : String) (format : String) :
    TableOutcome :=
  match result with
  | vObj attrs =>
      match attrs.lookup "content" with
      | none => .skippedNoContent
      | some c =>
          if !c.truthy then .skippedNoContent
          else
            match iterItems c with
            | none => .failedError
            | some items =>
                match getTexts items with
                | none => .failedError
                | some rows =>
                    if format == "csv" then .savedFile rows (filename ++ ".csv")
                    else if format == "excel" then .savedFile rows (filename ++ ".xlsx")
                    else .skippedBadFormat
  | _ => .skippedNoContent

/-- The early-return condition of `save_to_table` (line 150): the response
lacks a `content` attribute, or its `content` is empty/falsy. -/
def noSavableContent : Value → Bool
  | vObj attrs =>
      match attrs.lookup "content" with
      | none => true
      | some c => !c.truthy
  | _ => true

/-- Substring test, Python's `"Method not found" in str(e)`. -/
def str_contains (hay pat : String) : Bool :=
  decide (pat.data <:+: hay.data)

/-- Embedding of `FirecrawlMCPClient.list_resources` (lines 74-88).  The
remote call `self.session.list_resources()` is external (the MCP library);
its outcome is the `remote` argument: a resource list, or an exception with
message `e`.  The function returns the resources together with the console
note it prints; every exception is caught and yields the empty list. -/
def list_resources (remote : Except String (List Value)) :
    List Value × String :=
  match remote with
  | .ok rs => (rs, "Available Resources")
  | .error e =>
      if str_contains e "Method not found" then
        ([], "Resources: Not supported by this MCP server")
      else
        ([], "Error listing resources")

/-- The remote boundary of the facade operations:
`self.session.call_tool(name, params)` either returns a response value or
raises, which we model as a function from tool name and parameter mapping to
`Except`. -/
def CallTool : Type :=
  String → List (String × Value) → Except String Value

/-- Filename sanitization shared by `crawl_url` and `firecrawl_scrape`
(lines 215, 269). -/
def sanitize_url (url : String) : String :=
  (((url.replace "https://" "").replace "http://" "").replace "/" "_").replace "." "_"

/-- Embedding of `FirecrawlMCPClient.crawl_url` (lines 192-222).  Everything
in the `try` block that raises -- the remote call, or a `TypeError` inside
`save_to_file` -- is caught and turned into `None`. -/
def crawl_url (call : CallTool) (url : String) (save : Bool)
    (filename : Option String) (kwargs : List (String × Value)) (now : DT) :
    Option Value :=
  match call "crawl_url" (("url", vStr url) :: kwargs) with
  | .error _ => none
  | .ok result =>
      if save then
        let fname :=
          match filename with
          | some f => f
          | none => "crawl_" ++ sanitize_url url
        match save_to_file result (some fname) now "output" with
        | .error _ => none
        | .ok _ => some result
      else some result

/-- Embedding of `FirecrawlMCPClient.firecrawl_scrape` (lines 224-279); the
debug prints do not affect the result.  Same catch-all shape as
`crawl_url`. -/
def firecrawl_scrape (call : CallTool) (url : String) (save : Bool)
    (filename : Option String) (kwargs : List (String × Value)) (now : DT) :
    Option Value :=
  match call "firecrawl_scrape" (("url", vStr url) :: kwargs) with
  | .error _ => none
  | .ok result =>
      if save then
        let fname :=
          match filename with
          | some f => f
          | none => "scrape_" ++ sanitize_url url
        match save_to_file result (some fname) now "output" with
        | .error _ => none
        | .ok _ => some result
      else some result

/-- Python booleans are `int` subclasses; for every probe the code performs
they behave as the integers 1 and 0, which is how the parameter mapping of
`firecrawl_extract` encodes them. -/
def pyBool (b : Bool) : Value :=
  vInt (if b then 1 else 0)

/-- Default filename of `firecrawl_extract` (line 303):
`f"extract_{datetime.now().isoformat().replace(':', '_')}.json"`, at the
one-second precision of the clock model. -/
def extract_default_name (t : DT) : String :=
  "extract_" ++
    ((pad4 t.year ++ "-" ++ pad2 t.month ++ "-" ++ pad2 t.day ++ "T" ++
        pad2 t.hour ++ ":" ++ pad2 t.minute ++ ":" ++ pad2 t.second).replace ":" "_")
    ++ ".json"

/-- Python string interpolation of an optional name: `f"{filename}.xlsx"`
renders `None` as the text `None`. -/
def strOfOptName : Option String → String
  | some f => f
  | none => "None"

/-- Embedding of `FirecrawlMCPClient.firecrawl_extract` (lines 281-313).
`Path(filename).resolve()` only rewrites the path spelling, modelled as the
name itself.  `if not filename:` treats the empty string like a missing
name.  The table save cannot raise (its own `try` catches everything); the
`save_to_file` call can, and the outer `except` then yields `None`. -/
def firecrawl_extract (call : CallTool) (urls : List String)
    (prompt systemPrompt : String) (schema : Value)
    (allowExternalLinks enableWebSearch includeSubdomains : Bool)
    (saveToFile saveAsExcel : Bool) (filename : Option String) (now : DT) :
    Option Value :=
  let params :=
    [("urls", vList (urls.map vStr)), ("prompt", vStr prompt),
     ("systemPrompt", vStr systemPrompt), ("schema", schema),
     ("allowExternalLinks", pyBool allowExternalLinks),
     ("enableWebSearch", pyBool enableWebSearch),
     ("includeSubdomains", pyBool includeSubdomains)]
  match call "firecrawl_extract" params with
  | .error _ => none
  | .ok result =>
      let _tbl :=
        if saveAsExcel then some (save_to_table result (strOfOptName filename) "excel")
        else none
      if saveToFile then
        let fname :=
          match filename with
          | some f => if f == "" then extract_default_name now else f
          | none => extract_default_name now
        match save_to_file result (some fname) now "output" with
        | .error _ => none
        | .ok _ => some result
      else some result

/-- Embedding of `FirecrawlMCPClient.search` (lines 315-343). -/
def search (call : CallTool) (query : String) (save : Bool)
    (filename : Option String) (kwargs : List (String × Value)) (now : DT) :
    Option Value :=
  match call "search" (("query", vStr query) :: kwargs) with
  | .error _ => none
  | .ok result =>
      if save then
        let fname :=
          match filename with
          | some f => f
          | none => "search_" ++ query.replace " " "_"
        match save_to_file result (some fname) now "output" with
        | .error _ => none
        | .ok _ => some result
      else some result

/-! Unfolding equations.  The `attach` in the recursive definitions exists
only for the termination argument; these equations restate each arm in plain
`map` form, and everything downstream works with them. -/

@[simp] theorem make_serializable_vStr (s : String) :
    make_serializable (vStr s) = vStr s := by
  rw [make_serializable]

@[simp] theorem make_serializable_vBytes (b : List Nat) :
    make_serializable (vBytes b) = vBytes b := by
  rw [make_serializable]

@[simp] theorem make_serializable_vInt (n : Int) :
    make_serializable (vInt n) = vInt n := by
  rw [make_serializable]

@[simp] theorem make_serializable_vNone :
    make_serializable vNone = vNone := by
  rw [make_serializable]

@[simp] theorem make_serializable_vDict (entries : List (String × Value)) :
    make_serializable (vDict entries) = vList (entries.map (fun kv => vStr kv.1)) := by
  rw [make_serializable]

@[simp] theorem make_serializable_vList (items : List Value) :
    make_serializable (vList items) = vList (items.map make_serializable) := by
  rw [make_serializable]
  congr 1
  exact List.attach_map_coe _ (fun x : Value => make_serializable x)

@[simp] theorem make_serializable_vObj (attrs : List (String × Value)) :
    make_serializable (vObj attrs) =
      vDict ((attrs.filter (fun kv => !startswith_underscore kv.1)).map
        (fun kv => (kv.1, make_serializable kv.2))) := by
  rw [make_serializable]
  congr 1
  exact List.attach_map_coe _
    (fun kv : String × Value => (kv.1, make_serializable kv.2))

@[simp] theorem fragments_vStr (s : String) : fragments (vStr s) = [vStr s] := by
  rw [fragments]

@[simp] theorem fragments_vBytes (b : List Nat) : fragments (vBytes b) = [] := by
  rw [fragments]

@[simp] theorem fragments_vInt (n : Int) : fragments (vInt n) = [] := by
  rw [fragments]

@[simp] theorem fragments_vNone : fragments vNone = [] := by
  rw [fragments]

@[simp] theorem fragments_vList (items : List Value) :
    fragments (vList items) = (items.map fragments).flatten := by
  rw [fragments]
  congr 1
  exact List.attach_map_coe _ (fun x : Value => fragments x)

@[simp] theorem fragments_vDict (entries : List (String × Value)) :
    fragments (vDict entries) = entries.map (fun kv => vStr kv.1) := by
  rw [fragments]

@[simp] theorem fragments_vObj (attrs : List (String × Value)) :
    fragments (vObj attrs) =
      match attrs.lookup "text" with
      | some t => [t]
      | none =>
        match attrs.lookup "content" with
        | some (vStr s) => [vStr s]
        | some (vList l) => (l.map fragments).flatten
        | some (vDict e) => e.map (fun kv => vStr kv.1)
        | some (vBytes _) => []
        | some (vInt _) => []
        | some vNone => []
        | some (vObj _) => []
        | none => [] := by
  rw [fragments]
  cases attrs.lookup "text" with
  | some t => rfl
  | none =>
      cases hc : attrs.lookup "content" with
      | none => rfl
      | some c =>
          cases c with
          | vList l =>
              show (l.attach.map (fun x => fragments x.1)).flatten = _
              congr 1
              exact List.attach_map_coe _ (fun x : Value => fragments x)
          | vStr s => rfl
          | vBytes b => rfl
          | vInt n => rfl
          | vNone => rfl
          | vDict e => rfl
          | vObj a => rfl

/-! Structural predicates used to state the claims. -/

mutual
/-- The value contains no attribute-bearing object anywhere. -/
def objFree : Value → Bool
  | vObj _ => false
  | vList items => objFreeAll items
  | vDict entries => objFreeVals entries
  | vStr _ => true
  | vBytes _ => true
  | vInt _ => true
  | vNone => true

/-- Every element of the list is `objFree`. -/
def objFreeAll : List Value → Bool
  | [] => true
  | x :: xs => objFree x && objFreeAll xs

/-- Every mapping value is `objFree`. -/
def objFreeVals : List (String × Value) → Bool
  | [] => true
  | kv :: rest => objFree kv.2 && objFreeVals rest
end

mutual
/-- The value is built from strings, bytes, primitives and lists only: no
mapping and no attribute-bearing object anywhere. -/
def pureVal : Value → Bool
  | vObj _ => false
  | vDict _ => false
  | vList items => pureValAll items
  | vStr _ => true
  | vBytes _ => true
  | vInt _ => true
  | vNone => true

/-- Every element of the list is `pureVal`. -/
def pureValAll : List Value → Bool
  | [] => true
  | x :: xs => pureVal x && pureValAll xs
end

mutual
/-- No text-bearing field and no string payload anywhere in the structure:
no string value, no `text` attribute on any object, and no mapping entry
(a mapping's keys are strings and are themselves traversed). -/
def textFree : Value → Bool
  | vStr _ => false
  | vBytes _ => true
  | vInt _ => true
  | vNone => true
  | vList items => textFreeAll items
  | vDict entries => entries.isEmpty
  | vObj attrs => (attrs.lookup "text").isNone && textFreeVals attrs

/-- Every element of the list is `textFree`. -/
def textFreeAll : List Value → Bool
  | [] => true
  | x :: xs => textFree x && textFreeAll xs

/-- Every attribute value is `textFree`. -/
def textFreeVals : List (String × Value) → Bool
  | [] => true
  | kv :: rest => textFree kv.2 && textFreeVals rest
end

/-! General machinery: strong induction on the size of a value, and
membership forms of the list predicates. -/

/-- Strong induction on `sizeOf` for `Value` (the nested lists make the
default recursor awkward to use directly). -/
theorem value_size_ind (P : Value → Prop)
    (H : ∀ v, (∀ w, sizeOf w < sizeOf v → P w) → P v) : ∀ v, P v := by
  intro v
  suffices h : ∀ n (w : Value), sizeOf w < n → P w from
    h (sizeOf v + 1) v (Nat.lt_succ_self _)
  intro n
  induction n with
  | zero => intro w hw; exact absurd hw (Nat.not_lt_zero _)
  | succ n ih => intro w hw; exact H w (fun u hu => ih u (by omega))

theorem textFreeAll_mem {items : List Value} (h : textFreeAll items = true) :
    ∀ x ∈ items, textFree x = true := by
  induction items with
  | nil => intro x hx; cases hx
  | cons y ys ih =>
      rw [textFreeAll] at h
      intro x hx
      rcases List.mem_cons.mp hx with hx | hx
      · subst hx; exact (Bool.and_eq_true_iff.mp h).1
      · exact ih (Bool.and_eq_true_iff.mp h).2 x hx

theorem textFreeVals_mem {attrs : List (String × Value)}
    (h : textFreeVals attrs = true) :
    ∀ k x, (k, x) ∈ attrs → textFree x = true := by
  induction attrs with
  | nil => intro k x hx; cases hx
  | cons p ps ih =>
      rw [textFreeVals] at h
      intro k x hx
      rcases List.mem_cons.mp hx with hx | hx
      · have := (Bool.and_eq_true_iff.mp h).1
        cases hx; exact this
      · exact ih (Bool.and_eq_true_iff.mp h).2 k x hx

theorem objFreeAll_mem {items : List Value} (h : objFreeAll items = true) :
    ∀ x ∈ items, objFree x = true := by
  induction items with
  | nil => intro x hx; cases hx
  | cons y ys ih =>
      rw [objFreeAll] at h
      intro x hx
      rcases List.mem_cons.mp hx with hx | hx
      · subst hx; exact (Bool.and_eq_true_iff.mp h).1
      · exact ih (Bool.and_eq_true_iff.mp h).2 x hx

theorem pureValAll_mem {items : List Value} (h : pureValAll items = true) :
    ∀ x ∈ items, pureVal x = true := by
  induction items with
  | nil => intro x hx; cases hx
  | cons y ys ih =>
      rw [pureValAll] at h
      intro x hx
      rcases List.mem_cons.mp hx with hx | hx
      · subst hx; exact (Bool.and_eq_true_iff.mp h).1
      · exact ih (Bool.and_eq_true_iff.mp h).2 x hx

/-- On a value with no text source anywhere, the traversal accumulates
nothing. -/
theorem fragments_nil_of_textFree :
    ∀ v, textFree v = true → fragments v = [] := by
  refine value_size_ind (fun v => textFree v = true → fragments v = []) ?_
  intro v ih hv
  cases v with
  | vStr s => rw [textFree] at hv; cases hv
  | vBytes b => simp
  | vInt n => simp
  | vNone => simp
  | vDict entries =>
      rw [textFree] at hv
      rw [List.isEmpty_iff] at hv
      subst hv
      simp
  | vList items =>
      rw [textFree] at hv
      rw [fragments_vList, List.flatten_eq_nil_iff]
      intro l hl
      obtain ⟨x, hx, rfl⟩ := List.mem_map.mp hl
      refine ih x ?_ (textFreeAll_mem hv x hx)
      have := List.sizeOf_lt_of_mem hx
      simp
      omega
  | vObj attrs =>
      rw [textFree] at hv
      obtain ⟨h1, h2⟩ := Bool.and_eq_true_iff.mp hv
      rw [fragments_vObj]
      cases ht : attrs.lookup "text" with
      | some t => rw [ht] at h1; cases h1
      | none =>
          cases hc : attrs.lookup "content" with
          | none => rfl
          | some c =>
              have hcf : textFree c = true :=
                textFreeVals_mem h2 _ _ (lookup_mem hc)
              have hcs : sizeOf c < sizeOf attrs := sizeOf_lookup_lt hc
              cases c with
              | vStr s => rw [textFree] at hcf; cases hcf
              | vBytes b => rfl
              | vInt n => rfl
              | vNone => rfl
              | vObj a => rfl
              | vDict e =>
                  rw [textFree] at hcf
                  rw [List.isEmpty_iff] at hcf
                  subst hcf
                  rfl
              | vList l =>
                  rw [textFree] at hcf
                  show (l.map fragments).flatten = []
                  rw [List.flatten_eq_nil_iff]
                  intro m hm
                  obtain ⟨x, hx, rfl⟩ := List.mem_map.mp hm
                  refine ih x ?_ (textFreeAll_mem hcf x hx)
                  have hxl := List.sizeOf_lt_of_mem hx
                  simp at hcs ⊢
                  omega

/-! Claim theorems. -/

/-- C3: for every response value whose structure contains no text-bearing
field and no string payload anywhere, the text reduction returns nothing, and
`save_to_file` on that value writes no Markdown file: its returned Markdown
path is nothing. -/
theorem textFree_extract_none_no_markdown (v : Value) (fn : Option String)
    (now : DT) (dir : String) (h : textFree v = true) :
    extract_text_content v = .ok none ∧
      save_to_file v fn now dir =
        .ok ⟨dir ++ "/" ++ save_to_file_name fn now ++ ".json", none, false⟩ := by
  have hf : fragments v = [] := fragments_nil_of_textFree v h
  have he : extract_text_content v = .ok none := by
    rw [extract_text_content, hf]
    rfl
  refine ⟨he, ?_⟩
  rw [save_to_file, he]
  rfl

/-- Witness for C3 at the concrete text-free value `[3]`. -/
theorem textFree_extract_none_no_markdown_witness :
    extract_text_content (vList [vInt 3]) = .ok none ∧
      save_to_file (vList [vInt 3]) (some "f") ⟨2026, 10, 12, 0, 0, 0⟩ "output" =
        .ok ⟨"output" ++ "/" ++ save_to_file_name (some "f") ⟨2026, 10, 12, 0, 0, 0⟩ ++ ".json",
             none, false⟩ :=
  textFree_extract_none_no_markdown (vList [vInt 3]) (some "f")
    ⟨2026, 10, 12, 0, 0, 0⟩ "output" (by simp [textFree, textFreeAll])

/-- C9: a plain mapping reduces, under `_make_serializable`, to the ordered
list of its keys (each key reduced to itself, being a string); the mapping's
values are discarded. -/
theorem make_serializable_dict_keys (entries : List (String × Value)) :
    make_serializable (vDict entries) =
      vList (entries.map (fun kv => make_serializable (vStr kv.1))) := by
  simp

/-- C2: on a node that exposes both a `text` and a `content` attribute, the
traversal appends exactly the `text` attribute's value; the `content`
attribute contributes nothing. -/
theorem fragments_text_shortcircuits_content (attrs : List (String × Value))
    (t : Value) (ht : attrs.lookup "text" = some t)
    (_hc : (attrs.lookup "content").isSome = true) :
    fragments (vObj attrs) = [t] := by
  rw [fragments_vObj, ht]

/-- Witness for C2: a node carrying both attributes yields just its text. -/
theorem fragments_text_shortcircuits_content_witness :
    fragments (vObj [("text", vStr "A"), ("content", vList [vObj [("text", vStr "Z")]])]) =
      [vStr "A"] :=
  fragments_text_shortcircuits_content _ _ (by rfl) (by rfl)

theorem pureValAll_of_forall {items : List Value}
    (h : ∀ x ∈ items, pureVal x = true) : pureValAll items = true := by
  induction items with
  | nil => rw [pureValAll]
  | cons y ys ih =>
      rw [pureValAll, Bool.and_eq_true_iff]
      exact ⟨h y (List.mem_cons_self _ _), ih (fun x hx => h x (List.mem_cons_of_mem _ hx))⟩

/-- A value built only from strings, bytes, primitives and lists is a fixed
point of the serializable-form reduction. -/
theorem make_serializable_fix_of_pureVal :
    ∀ v, pureVal v = true → make_serializable v = v := by
  refine value_size_ind (fun v => pureVal v = true → make_serializable v = v) ?_
  intro v ih hv
  cases v with
  | vStr s => simp
  | vBytes b => simp
  | vInt n => simp
  | vNone => simp
  | vDict e => rw [pureVal] at hv; cases hv
  | vObj a => rw [pureVal] at hv; cases hv
  | vList items =>
      rw [pureVal] at hv
      rw [make_serializable_vList]
      congr 1
      have hfix : ∀ x ∈ items, make_serializable x = x := by
        intro x hx
        refine ih x ?_ (pureValAll_mem hv x hx)
        have := List.sizeOf_lt_of_mem hx
        simp
        omega
      calc items.map make_serializable = items.map id := List.map_congr_left hfix
        _ = items := List.map_id _

/-- On an input containing no attribute-bearing object, the reduction's
output is built only from strings, bytes, primitives and lists. -/
theorem pureVal_make_serializable_of_objFree :
    ∀ v, objFree v = true → pureVal (make_serializable v) = true := by
  refine value_size_ind (fun v => objFree v = true → pureVal (make_serializable v) = true) ?_
  intro v ih hv
  cases v with
  | vStr s => simp [pureVal]
  | vBytes b => simp [pureVal]
  | vInt n => simp [pureVal]
  | vNone => simp [pureVal]
  | vObj a => rw [objFree] at hv; cases hv
  | vDict entries =>
      rw [make_serializable_vDict, pureVal]
      apply pureValAll_of_forall
      intro y hy
      obtain ⟨kv, _, rfl⟩ := List.mem_map.mp hy
      rw [pureVal]
  | vList items =>
      rw [objFree] at hv
      rw [make_serializable_vList, pureVal]
      apply pureValAll_of_forall
      intro y hy
      obtain ⟨x, hx, rfl⟩ := List.mem_map.mp hy
      refine ih x ?_ (objFreeAll_mem hv x hx)
      have := List.sizeOf_lt_of_mem hx
      simp
      omega

/-- C1 (amended): the serializable-form reduction is idempotent on every
input that contains no attribute-bearing object. -/
theorem make_serializable_idempotent_of_objFree (v : Value)
    (h : objFree v = true) :
    make_serializable (make_serializable v) = make_serializable v :=
  make_serializable_fix_of_pureVal _ (pureVal_make_serializable_of_objFree v h)

/-- Witness for C1 (amended), on a list holding a string and a mapping. -/
theorem make_serializable_idempotent_of_objFree_witness :
    make_serializable (make_serializable (vList [vStr "x", vDict [("k", vInt 2)]])) =
      make_serializable (vList [vStr "x", vDict [("k", vInt 2)]]) :=
  make_serializable_idempotent_of_objFree (vList [vStr "x", vDict [("k", vInt 2)]])
    (by simp [objFree, objFreeAll, objFreeVals])

/-- C1 counterexample: on an object with one public attribute the reduction
is not idempotent -- the first pass yields a mapping, and the second pass
degrades that mapping to the list of its keys. -/
theorem make_serializable_not_idempotent :
    make_serializable (make_serializable (vObj [("a", vInt 1)])) ≠
      make_serializable (vObj [("a", vInt 1)]) := by
  have h1 : make_serializable (vObj [("a", vInt 1)]) = vDict [("a", vInt 1)] := by
    simp [startswith_underscore]
  rw [h1]
  have h2 : make_serializable (vDict [("a", vInt 1)]) = vList [vStr "a"] := by
    simp
  rw [h2]
  simp

/-- C10 (amended): when the traversal finds exactly one fragment and that
fragment is the empty string, the text reduction returns the empty string
(not nothing), yet `save_to_file` still writes no Markdown file and returns
nothing for the Markdown path. -/
theorem single_empty_fragment_no_markdown (v : Value) (fn : Option String)
    (now : DT) (dir : String) (h : fragments v = [vStr ""]) :
    extract_text_content v = .ok (some "") ∧
      save_to_file v fn now dir =
        .ok ⟨dir ++ "/" ++ save_to_file_name fn now ++ ".json", none, false⟩ := by
  have he : extract_text_content v = .ok (some "") := by
    rw [extract_text_content, h]
    rfl
  refine ⟨he, ?_⟩
  rw [save_to_file, he]
  rfl

/-- Witness for C10 (amended): the bare empty string is its own single empty
fragment. -/
theorem single_empty_fragment_no_markdown_witness :
    extract_text_content (vStr "") = .ok (some "") ∧
      save_to_file (vStr "") (some "f") ⟨2026, 10, 12, 0, 0, 0⟩ "output" =
        .ok ⟨"output" ++ "/" ++ save_to_file_name (some "f") ⟨2026, 10, 12, 0, 0, 0⟩ ++ ".json",
             none, false⟩ :=
  single_empty_fragment_no_markdown (vStr "") (some "f") ⟨2026, 10, 12, 0, 0, 0⟩
    "output" (by simp)

/-- C10 counterexample: with two empty fragments the join is a bare
blank-line separator, which is truthy, so the reduction does not return the
empty string and the Markdown file IS written. -/
theorem empty_fragments_markdown_written :
    extract_text_content (vList [vStr "", vStr ""]) ≠ .ok (some "") ∧
      save_to_file (vList [vStr "", vStr ""]) (some "f") ⟨2026, 10, 12, 0, 0, 0⟩ "output" =
        .ok ⟨"output/f.json", some "output/f.md", true⟩ := by
  have hf : fragments (vList [vStr "", vStr ""]) = [vStr "", vStr ""] := by simp
  have he : extract_text_content (vList [vStr "", vStr ""]) = .ok (some "\n\n") := by
    rw [extract_text_content, hf]
    rfl
  constructor
  · rw [he]
    simp only [ne_eq, Except.ok.injEq, Option.some.injEq]
    decide
  · rw [save_to_file, he]
    rfl

/-- C4: on the example value with a `content` field holding the two items
with texts `A` and `B`, the text reduction returns `A`, a blank-line
separator, then `B`, and `save_to_table` produces a one-column table (the
`savedFile` row list is that single column) whose rows are `A` and `B` in
that order. -/
theorem example_content_AB :
    extract_text_content
        (vObj [("content", vList [vObj [("text", vStr "A")], vObj [("text", vStr "B")]])]) =
      .ok (some "A\n\nB") ∧
    save_to_table
        (vObj [("content", vList [vObj [("text", vStr "A")], vObj [("text", vStr "B")]])])
        "structured_data" "excel" =
      .savedFile [vStr "A", vStr "B"] "structured_data.xlsx" := by
  constructor
  · have hf :
        fragments (vObj [("content", vList [vObj [("text", vStr "A")], vObj [("text", vStr "B")]])]) =
          [vStr "A", vStr "B"] := by
      simp [List.lookup]
    rw [extract_text_content, hf]
    rfl
  · rfl

/-- C5: `save_to_table` on a response lacking a content field (or with an
empty one) reports the skip and writes nothing, and under an unsupported
format string no file is ever written; being a total function of the model,
it propagates no exception in either case. -/
theorem save_to_table_skips (r : Value) (fn fmt : String) :
    (noSavableContent r = true → save_to_table r fn fmt = .skippedNoContent) ∧
    (fmt ≠ "csv" → fmt ≠ "excel" →
      ∀ rows path, save_to_table r fn fmt ≠ .savedFile rows path) := by
  constructor
  · intro h
    cases r with
    | vObj attrs =>
        rw [save_to_table]
        rw [noSavableContent] at h
        cases hc : attrs.lookup "content" with
        | none => rfl
        | some c =>
            rw [hc] at h
            have h' : (!c.truthy) = true := by simpa using h
            simp [h']
    | vStr s => rfl
    | vBytes b => rfl
    | vInt n => rfl
    | vNone => rfl
    | vList l => rfl
    | vDict e => rfl
  · intro h1 h2 rows path hcon
    cases r with
    | vObj attrs =>
        rw [save_to_table] at hcon
        split at hcon
        · cases hcon
        · split at hcon
          · cases hcon
          · split at hcon
            · cases hcon
            · split at hcon
              · cases hcon
              · split at hcon
                · exact h1 (by simpa using ‹(fmt == "csv") = true›)
                · split at hcon
                  · exact h2 (by simpa using ‹(fmt == "excel") = true›)
                  · cases hcon
    | vStr s => cases hcon
    | vBytes b => cases hcon
    | vInt n => cases hcon
    | vNone => cases hcon
    | vList l => cases hcon
    | vDict e => cases hcon

/-- Witness for C5: a response with no content attribute is skipped, and a
`pdf` format never yields a file. -/
theorem save_to_table_skips_witness :
    save_to_table (vObj [("data", vStr "x")]) "f" "pdf" = .skippedNoContent ∧
      ∀ rows path, save_to_table (vObj [("data", vStr "x")]) "f" "pdf" ≠
        .savedFile rows path :=
  ⟨(save_to_table_skips (vObj [("data", vStr "x")]) "f" "pdf").1 (by rfl),
   (save_to_table_skips (vObj [("data", vStr "x")]) "f" "pdf").2
     (by decide) (by decide)⟩

/-- C6: for every facade operation, when the remote tool invocation raises,
the operation returns nothing; the exception is caught inside the operation
(the model is a total function), so nothing propagates to the caller. -/
theorem facade_error_returns_none (call : CallTool) (url query : String)
    (urls : List String) (prompt sysPrompt : String) (schema : Value)
    (b1 b2 b3 sf se : Bool) (fn : Option String)
    (kwargs : List (String × Value)) (now : DT) (e1 e2 e3 e4 : String) :
    (call "crawl_url" (("url", vStr url) :: kwargs) = .error e1 →
        crawl_url call url sf fn kwargs now = none) ∧
    (call "firecrawl_scrape" (("url", vStr url) :: kwargs) = .error e2 →
        firecrawl_scrape call url sf fn kwargs now = none) ∧
    (call "firecrawl_extract"
        [("urls", vList (urls.map vStr)), ("prompt", vStr prompt),
         ("systemPrompt", vStr sysPrompt), ("schema", schema),
         ("allowExternalLinks", pyBool b1), ("enableWebSearch", pyBool b2),
         ("includeSubdomains", pyBool b3)] = .error e3 →
        firecrawl_extract call urls prompt sysPrompt schema b1 b2 b3 sf se fn now = none) ∧
    (call "search" (("query", vStr query) :: kwargs) = .error e4 →
        search call query sf fn kwargs now = none) := by
  refine ⟨?_, ?_, ?_, ?_⟩
  · intro h
    simp only [crawl_url]
    rw [h]
  · intro h
    simp only [firecrawl_scrape]
    rw [h]
  · intro h
    simp only [firecrawl_extract]
    rw [h]
  · intro h
    simp only [search]
    rw [h]

/-- Witness for C6, with a remote boundary that always raises. -/
theorem facade_error_returns_none_witness :
    crawl_url (fun _ _ => .error "boom") "u" false none [] ⟨2026, 10, 12, 0, 0, 0⟩ = none ∧
    firecrawl_scrape (fun _ _ => .error "boom") "u" false none [] ⟨2026, 10, 12, 0, 0, 0⟩ = none ∧
    firecrawl_extract (fun _ _ => .error "boom") ["u"] "p" "s" vNone
      false false false false false none ⟨2026, 10, 12, 0, 0, 0⟩ = none ∧
    search (fun _ _ => .error "boom") "q" false none [] ⟨2026, 10, 12, 0, 0, 0⟩ = none := by
  obtain ⟨a, b, c, d⟩ :=
    facade_error_returns_none (fun _ _ => .error "boom") "u" "q" ["u"] "p" "s" vNone
      false false false false false none [] ⟨2026, 10, 12, 0, 0, 0⟩
      "boom" "boom" "boom" "boom"
  exact ⟨a rfl, b rfl, c rfl, d rfl⟩

/-- C7: when the remote list-resources call fails with a message containing
"Method not found", `list_resources` returns the empty list (with the
"not supported" console note) rather than raising. -/
theorem list_resources_method_not_found_empty
    (remote : Except String (List Value)) (e : String)
    (h1 : remote = .error e)
    (h2 : str_contains e "Method not found" = true) :
    list_resources remote = ([], "Resources: Not supported by this MCP server") := by
  subst h1
  simp [list_resources, h2]

/-- Witness for C7 at a concrete failing remote call. -/
theorem list_resources_method_not_found_empty_witness :
    list_resources (.error "MCP error -32601: Method not found") =
      ([], "Resources: Not supported by this MCP server") :=
  list_resources_method_not_found_empty _ "MCP error -32601: Method not found"
    rfl (by decide)

theorem digitChar_inj (a b : Nat) (ha : a < 10) (hb : b < 10)
    (h : Nat.digitChar a = Nat.digitChar b) : a = b := by
  have key : ∀ a, a < 10 → ∀ b, b < 10 → Nat.digitChar a = Nat.digitChar b → a = b := by
    decide
  exact key a ha b hb h

theorem pad2_data (n : Nat) :
    (pad2 n).data = [Nat.digitChar (n / 10), Nat.digitChar (n % 10)] := rfl

theorem pad4_data (n : Nat) :
    (pad4 n).data = [Nat.digitChar (n / 1000), Nat.digitChar (n / 100 % 10),
      Nat.digitChar (n / 10 % 10), Nat.digitChar (n % 10)] := rfl

/-- The second-precision timestamp format is injective on valid clock
readings. -/
theorem strftime_ts_inj (t1 t2 : DT) (h1 : validDT t1) (h2 : validDT t2)
    (h : strftime_ts t1 = strftime_ts t2) : t1 = t2 := by
  obtain ⟨y1, mo1, d1, hh1, mi1, s1⟩ := t1
  obtain ⟨y2, mo2, d2, hh2, mi2, s2⟩ := t2
  unfold validDT at h1 h2
  dsimp only at h1 h2
  obtain ⟨hy1, hy1b, hmo1, hmo1b, hd1, hd1b, hhh1, hmi1, hs1⟩ := h1
  obtain ⟨hy2, hy2b, hmo2, hmo2b, hd2, hd2b, hhh2, hmi2, hs2⟩ := h2
  have hd := congrArg String.data h
  simp only [strftime_ts, String.data_append, pad2_data, pad4_data,
    List.cons_append, List.nil_append, List.cons.injEq, and_true] at hd
  obtain ⟨e1, e2, e3, e4, e5, e6, e7, e8, _, e9, e10, e11, e12, e13, e14⟩ := hd
  have g1 := digitChar_inj _ _ (by omega) (by omega) e1
  have g2 := digitChar_inj _ _ (by omega) (by omega) e2
  have g3 := digitChar_inj _ _ (by omega) (by omega) e3
  have g4 := digitChar_inj _ _ (by omega) (by omega) e4
  have g5 := digitChar_inj _ _ (by omega) (by omega) e5
  have g6 := digitChar_inj _ _ (by omega) (by omega) e6
  have g7 := digitChar_inj _ _ (by omega) (by omega) e7
  have g8 := digitChar_inj _ _ (by omega) (by omega) e8
  have g9 := digitChar_inj _ _ (by omega) (by omega) e9
  have g10 := digitChar_inj _ _ (by omega) (by omega) e10
  have g11 := digitChar_inj _ _ (by omega) (by omega) e11
  have g12 := digitChar_inj _ _ (by omega) (by omega) e12
  have g13 := digitChar_inj _ _ (by omega) (by omega) e13
  have g14 := digitChar_inj _ _ (by omega) (by omega) e14
  simp only [DT.mk.injEq]
  refine ⟨by omega, by omega, by omega, by omega, by omega, by omega⟩

/-- C8: with no filename, `save_to_file` uses the generated name
`firecrawl_result_` followed by the second-precision timestamp, and two
calls whose clock readings differ (at that one-second precision) generate
distinct filenames. -/
theorem generated_filenames_distinct (t1 t2 : DT)
    (h1 : validDT t1) (h2 : validDT t2) (hne : t1 ≠ t2) :
    save_to_file_name none t1 = "firecrawl_result_" ++ strftime_ts t1 ∧
      save_to_file_name none t1 ≠ save_to_file_name none t2 := by
  refine ⟨rfl, ?_⟩
  intro hcon
  apply hne
  apply strftime_ts_inj t1 t2 h1 h2
  have hdata := congrArg String.data hcon
  simp only [save_to_file_name, genFilename, String.data_append] at hdata
  exact String.ext (List.append_cancel_left hdata)

/-- Witness for C8: clock readings one second apart generate distinct
names. -/
theorem generated_filenames_distinct_witness :
    save_to_file_name none ⟨2026, 10, 12, 9, 30, 0⟩ =
        "firecrawl_result_" ++ strftime_ts ⟨2026, 10, 12, 9, 30, 0⟩ ∧
      save_to_file_name none ⟨2026, 10, 12, 9, 30, 0⟩ ≠
        save_to_file_name none ⟨2026, 10, 12, 9, 30, 1⟩ :=
  generated_filenames_distinct ⟨2026, 10, 12, 9, 30, 0⟩ ⟨2026, 10, 12, 9, 30, 1⟩
    (by decide) (by decide) (by decide)
